import Mathlib

/-! Shallow embedding of `src/app.py` (streamlit inventory tracker) and proofs
about its ledger operations.  Tables are modelled as in-memory values; the
pandas DataFrame operations the script uses are translated function by
function.  Machine floats do not occur in the logic we verify: all numeric
cells are modelled as rationals, and python exceptions as `Except` errors.
-/

/-- A spreadsheet cell as the script's DataFrames hold it: missing (`pd.NA` /
`NaN`), a boolean, an integer, a rational number, or a string. -/
inductive Cell where
  | na : Cell
  | bool (b : Bool) : Cell
  | int (n : Int) : Cell
  | num (q : ℚ) : Cell
  | str (s : String) : Cell
deriving DecidableEq, Repr

/-- An in-memory sheet, as a pandas DataFrame: the length of the row index and
an ordered list of named columns (each column carries its cells, one per row). -/
structure Table where
  nrows : Nat
  cols : List (String × List Cell)
deriving DecidableEq, Repr

/-- The default a freshly added column gets in `ensure_columns`
(src/app.py lines 33-36): `False` for the boolean columns `Paid` and
`Claimed`, `pd.NA` otherwise. -/
def defaultFor (col : String) : Cell :=
  if col = "Paid" ∨ col = "Claimed" then Cell.bool false else Cell.na

/-- `col in df.columns`. -/
def hasCol (t : Table) (name : String) : Bool :=
  t.cols.any (fun c => c.1 == name)

/-- One iteration of the `ensure_columns` loop: `if col not in df.columns:
df[col] = default` — a new column is appended at the end, with the default
value in every existing row. -/
def addCol (t : Table) (name : String) : Table :=
  if hasCol t name then t
  else { t with cols := t.cols ++ [(name, List.replicate t.nrows (defaultFor name))] }

/-- `ensure_columns(df, required_cols)` (src/app.py lines 29-37). -/
def ensure_columns (t : Table) (required : List String) : Table :=
  required.foldl addCol t

/-- The `required_sheets` dict (src/app.py lines 8-16): each sheet name with
its required column list. -/
def required_sheets : List (String × List String) :=
  [("Stock", ["ItemCode", "Item", "Stock", "Price1", "Price2", "Price3"]),
   ("Sales", ["Date", "ItemCode", "Qty", "Price", "Total", "InvoiceType", "InvoiceID"]),
   ("StockUpdate", ["Date", "ItemCode", "Qty", "Type", "BoughtPrice"]),
   ("Cheques", ["Date", "FutureDate", "ItemCode", "Qty", "Amount", "Claimed"]),
   ("Expenses", ["Month", "Type", "Amount"]),
   ("BillToBill", ["Date", "InvoiceID", "Amount", "DueDate", "Paid"]),
   ("OwingPurchases", ["Date", "InvoiceID", "Amount", "DueDate", "Paid"])]

/-- The empty DataFrame `pd.DataFrame(columns=required_sheets[sheet])`:
zero rows, one empty column per required name. -/
def emptyTable (required : List String) : Table :=
  { nrows := 0, cols := required.map (fun c => (c, [])) }

/-- `load_sheet(sheet)` (src/app.py lines 39-46).  The outcome of
`pd.read_excel` is passed in as an `Except` value (`.error e` models the
raised exception with message `e`).  On success the loaded frame is passed
through `ensure_columns`; on any failure the error is reported via
`st.error` (the second component carries the reported message) and the empty
table with the sheet's required schema is returned — the exception is caught,
never propagated to the caller. -/
def load_sheet (required : List String) (readResult : Except String Table) :
    Table × Option String :=
  match readResult with
  | Except.ok df => (ensure_columns df required, none)
  | Except.error e => (emptyTable required, some e)

/-! The ledger state and the mutation forms. -/

/-- One row of the `Stock` sheet. -/
structure StockRow where
  itemCode : String
  item : String
  stock : Int
  price1 : ℚ
  price2 : ℚ
  price3 : ℚ
deriving DecidableEq, Repr

/-- One row of the `Sales` sheet, as `sale_form` appends it. -/
structure SalesRow where
  date : Int
  itemCode : String
  qty : Int
  price : ℚ
  total : ℚ
  invoiceType : String
  invoiceID : String
deriving DecidableEq, Repr

/-- One row of the `StockUpdate` sheet.  `utype` is the `Type` column;
`boughtPrice` is `none` for the `pd.NA` the sale path writes. -/
structure UpdateRow where
  date : Int
  itemCode : String
  qty : Int
  utype : String
  boughtPrice : Option ℚ
deriving DecidableEq, Repr

/-- One row of the `BillToBill` sheet. -/
structure BillRow where
  date : Int
  invoiceID : String
  amount : ℚ
  dueDate : Int
  paid : Bool
deriving DecidableEq, Repr

/-- The in-memory snapshots the sale and restock forms read and write:
`stock_df`, `sales_df`, `update_df`, `bill_df`.  Dates are modelled as day
numbers (`Int`). -/
structure LedgerState where
  stock : List StockRow
  sales : List SalesRow
  stockUpdate : List UpdateRow
  billToBill : List BillRow
deriving DecidableEq, Repr

/-- The `price_col` selectbox: one of `Price1`, `Price2`, `Price3`. -/
inductive PriceCol where
  | price1 : PriceCol
  | price2 : PriceCol
  | price3 : PriceCol
deriving DecidableEq, Repr

/-- `item_row[price_col]`. -/
def priceOf (r : StockRow) : PriceCol → ℚ
  | PriceCol.price1 => r.price1
  | PriceCol.price2 => r.price2
  | PriceCol.price3 => r.price3

/-- A python exception the script can raise, or an error kind the spec names
but the script never produces. -/
inductive PyError where
  | indexError : PyError
  | unknownItem : PyError
deriving DecidableEq, Repr

/-- The `sale_form` submit handler (src/app.py lines 113-123).
`stock_df[stock_df["ItemCode"] == item_code].iloc[0]` raises `IndexError`
when no Stock row matches (modelled as `Except.error PyError.indexError`;
nothing has been mutated at that point).  Otherwise: `total = qty *
selling_price`; one row is appended to `sales_df` and one to `update_df`
(`Qty = -qty`, `Type = "Sale"`, `BoughtPrice = pd.NA`); `stock_df.loc[...,
"Stock"] -= qty` decrements the `Stock` field of every row whose `ItemCode`
matches.  Nothing else — in particular `bill_df` — is touched. -/
def recordSale (date : Int) (code : String) (qty : Int) (pc : PriceCol)
    (invoiceType invoiceId : String) (s : LedgerState) :
    Except PyError LedgerState :=
  match (s.stock.filter (fun r => r.itemCode == code)).head? with
  | none => Except.error PyError.indexError
  | some itemRow =>
    let sellingPrice := priceOf itemRow pc
    let total := (qty : ℚ) * sellingPrice
    Except.ok
      { s with
        sales := s.sales ++
          [⟨date, code, qty, sellingPrice, total, invoiceType, invoiceId⟩],
        stockUpdate := s.stockUpdate ++ [⟨date, code, -qty, "Sale", none⟩],
        stock := s.stock.map (fun r =>
          if r.itemCode == code then { r with stock := r.stock - qty } else r) }

/-- The `stock_update_form` submit handler (src/app.py lines 133-137): append
one `StockUpdate` row (`Qty = +qty`, `Type = "Restock"`, `BoughtPrice =
bought_price`) and increment the `Stock` field of every matching row
(`stock_df.loc[..., "Stock"] += qty` is a no-op when no row matches — it
raises nothing). -/
def restock (date : Int) (code : String) (qty : Int) (boughtPrice : ℚ)
    (s : LedgerState) : LedgerState :=
  { s with
    stockUpdate := s.stockUpdate ++ [⟨date, code, qty, "Restock", some boughtPrice⟩],
    stock := s.stock.map (fun r =>
      if r.itemCode == code then { r with stock := r.stock + qty } else r) }

/-- The `Stock` field of the first Stock row with the given `ItemCode`
(`none` when the code is absent). -/
def stockOf (code : String) (s : LedgerState) : Option Int :=
  (s.stock.find? (fun r => r.itemCode == code)).map StockRow.stock

/-- Modelled on the spec's words (spec.md section 4.3), for comparison with
`recordSale`: "`recordSale` ... fails with `UnknownItem` if `code` not in
Stock".  The source has no such check. -/
def recordSaleSpecErr (code : String) (s : LedgerState) : Option PyError :=
  if s.stock.all (fun r => r.itemCode != code) then some PyError.unknownItem else none

/-! The `due_soon_alert` reminder check (src/app.py lines 66-75). -/

/-- A row as `due_soon_alert` sees it after
`pd.to_datetime(df[date_col], errors='coerce').dt.date`: `date` is the parsed
calendar date as a day number, `none` when the raw cell was missing or
unparseable (`NaT`); `done` is the boolean column's cell, `none` when it is
`NaN`/`NA`. -/
structure DueRow where
  date : Option Int
  done : Option Bool
deriving DecidableEq, Repr

/-- Python truthiness of `not row[bool_col]` on a possibly-missing boolean
cell: `not False` is `True`, `not True` is `False`, and `not nan` is `False`
because a float `NaN` is truthy in python. -/
def cellNotTruthy : Option Bool → Bool
  | some b => !b
  | none => false

/-- The per-row test of `due_soon_alert`: `not row[bool_col]`, the parsed date
is not `NaT`, and `days_left = (row[date_col] - today).days` satisfies
`days_left <= 3 and days_left >= 0`. -/
def dueSoonRow (today : Int) (r : DueRow) : Bool :=
  cellNotTruthy r.done &&
    (match r.date with
     | some d => decide (d - today ≤ 3 ∧ 0 ≤ d - today)
     | none => false)

/-- `due_soon_alert(df, date_col, bool_col)`: iterate the rows, return `True`
on the first row passing the test, `False` when none does. -/
def due_soon_alert (rows : List DueRow) (today : Int) : Bool :=
  rows.any (dueSoonRow today)

/-! The Dashboard profit loop (src/app.py lines 210-219). -/

/-- A `Sales` row as the Dashboard loop reads it back from the sheet: the
`Qty` and `Price` cells may be malformed (non-numeric), which the loop's
arithmetic turns into a raised exception; `none` models such a cell. -/
structure RawSalesRow where
  itemCode : String
  qty : Option ℚ
  price : Option ℚ
deriving DecidableEq, Repr

/-- `update_df[(update_df["ItemCode"] == item_code) &
(update_df["BoughtPrice"].notnull())]["BoughtPrice"]`: the non-null
`BoughtPrice` values of the StockUpdate rows for this item. -/
def boughtPricesFor (updates : List UpdateRow) (code : String) : List ℚ :=
  (updates.filter (fun u => u.itemCode == code)).filterMap UpdateRow.boughtPrice

/-- `cost_price = bought_prices.mean() if not bought_prices.empty else 0`:
the arithmetic mean of the non-null bought prices, `0` when there are none. -/
def costBasis (updates : List UpdateRow) (code : String) : ℚ :=
  let bps := boughtPricesFor updates code
  if bps.isEmpty then 0 else bps.sum / bps.length

/-- One iteration's contribution `qty_sold * (sale["Price"] - cost_price)`;
`Except.error ()` models the exception a malformed `Qty` or `Price` cell
raises there. -/
def profitRow (updates : List UpdateRow) (r : RawSalesRow) : Except Unit ℚ :=
  match r.qty, r.price with
  | some q, some p => Except.ok (q * (p - costBasis updates r.itemCode))
  | _, _ => Except.error ()

/-- The Dashboard's estimated profit: `profit` starts at `0` and the loop
adds each row's contribution; an exception anywhere in the loop discards the
accumulator and falls back to `total_sales - total_expense` (the sums of the
`Sales.Total` and `Expenses.Amount` columns, computed earlier in the script
and passed in here). -/
def profitEstimate (sales : List RawSalesRow) (updates : List UpdateRow)
    (totalSales totalExpense : ℚ) : ℚ :=
  match sales.foldlM (fun acc r => (profitRow updates r).map (fun v => acc + v)) (0 : ℚ) with
  | Except.ok p => p
  | Except.error _ => totalSales - totalExpense

/-! Helper lemmas about `ensure_columns`. -/

theorem hasCol_addCol_mono (t : Table) (c name : String)
    (h : hasCol t name = true) : hasCol (addCol t c) name = true := by
  unfold addCol
  split
  · exact h
  · unfold hasCol at h ⊢
    rw [List.any_append]
    rw [h]
    rfl

theorem hasCol_addCol_self (t : Table) (c : String) :
    hasCol (addCol t c) c = true := by
  unfold addCol
  split
  · assumption
  · unfold hasCol
    rw [List.any_append]
    simp

theorem hasCol_addCol_false (t : Table) (c name : String)
    (h : hasCol (addCol t c) name = false) : hasCol t name = false := by
  cases hname : hasCol t name
  · rfl
  · rw [hasCol_addCol_mono t c name hname] at h
    exact h

theorem addCol_nrows (t : Table) (c : String) : (addCol t c).nrows = t.nrows := by
  unfold addCol
  split <;> rfl

theorem ensure_hasCol_mono (req : List String) (t : Table) (name : String)
    (h : hasCol t name = true) : hasCol (ensure_columns t req) name = true := by
  induction req generalizing t with
  | nil => exact h
  | cons c cs ih => exact ih (addCol t c) (hasCol_addCol_mono t c name h)

theorem ensure_hasCol (req : List String) (t : Table) (name : String)
    (h : name ∈ req) : hasCol (ensure_columns t req) name = true := by
  induction req generalizing t with
  | nil => cases h
  | cons c cs ih =>
    rcases List.mem_cons.mp h with rfl | hmem
    · exact ensure_hasCol_mono cs (addCol t name) name (hasCol_addCol_self t name)
    · exact ih (addCol t c) hmem

theorem ensure_columns_all_present (req : List String) (t : Table)
    (h : ∀ c ∈ req, hasCol t c = true) : ensure_columns t req = t := by
  induction req generalizing t with
  | nil => rfl
  | cons c cs ih =>
    have hc : addCol t c = t := by
      unfold addCol
      rw [if_pos (h c (List.mem_cons_self c cs))]
    show ensure_columns (addCol t c) cs = t
    rw [hc]
    exact ih t (fun x hx => h x (List.mem_cons_of_mem c hx))

theorem ensure_columns_decomp (req : List String) (t : Table) :
    ∃ extra : List (String × List Cell),
      (ensure_columns t req).nrows = t.nrows ∧
      (ensure_columns t req).cols = t.cols ++ extra ∧
      ∀ p ∈ extra, p.1 ∈ req ∧ hasCol t p.1 = false ∧
        p.2 = List.replicate t.nrows (defaultFor p.1) := by
  induction req generalizing t with
  | nil =>
    refine ⟨[], rfl, (List.append_nil t.cols).symm, ?_⟩
    intro p hp
    cases hp
  | cons c cs ih =>
    rcases ih (addCol t c) with ⟨extra, hn, hc, hp⟩
    cases hcase : hasCol t c with
    | true =>
      have ha : addCol t c = t := by
        unfold addCol
        rw [if_pos hcase]
      refine ⟨extra, ?_, ?_, ?_⟩
      · show (ensure_columns (addCol t c) cs).nrows = t.nrows
        rw [hn, ha]
      · show (ensure_columns (addCol t c) cs).cols = t.cols ++ extra
        rw [hc, ha]
      · intro p hmem
        have h1 := hp p hmem
        rw [ha] at h1
        exact ⟨List.mem_cons_of_mem c h1.1, h1.2.1, h1.2.2⟩
    | false =>
      have hnot : ¬ (hasCol t c = true) := by
        rw [hcase]
        exact Bool.false_ne_true
      have ha : addCol t c =
          { t with cols := t.cols ++ [(c, List.replicate t.nrows (defaultFor c))] } := by
        unfold addCol
        rw [if_neg hnot]
      refine ⟨(c, List.replicate t.nrows (defaultFor c)) :: extra, ?_, ?_, ?_⟩
      · show (ensure_columns (addCol t c) cs).nrows = t.nrows
        rw [hn, ha]
      · show (ensure_columns (addCol t c) cs).cols =
          t.cols ++ (c, List.replicate t.nrows (defaultFor c)) :: extra
        rw [hc, ha]
        simp [List.append_assoc]
      · intro p hmem
        rcases List.mem_cons.mp hmem with rfl | hmem'
        · exact ⟨List.mem_cons_self c cs, hcase, rfl⟩
        · have h1 := hp p hmem'
          refine ⟨List.mem_cons_of_mem c h1.1, hasCol_addCol_false t c p.1 h1.2.1, ?_⟩
          rw [h1.2.2, ha]

/-- C6: `ensure_columns` is idempotent — applying it twice with the same
required column list yields exactly the same table as applying it once. -/
theorem ensure_columns_idempotent (t : Table) (req : List String) :
    ensure_columns (ensure_columns t req) req = ensure_columns t req :=
  ensure_columns_all_present req (ensure_columns t req)
    (fun c hc => ensure_hasCol req t c hc)

/-- C9: `ensure_columns` appends each absent required column with its default
value (`false` for the boolean columns `Paid` and `Claimed`, the missing
marker `pd.NA` otherwise) replicated to every existing row, and leaves
everything else untouched: the existing columns survive as an unchanged
prefix (never removed, never reordered, cells never mutated), the
row count is preserved, and afterwards every required column is present. -/
theorem ensure_columns_frame (t : Table) (req : List String) :
    (∃ extra : List (String × List Cell),
      (ensure_columns t req).cols = t.cols ++ extra ∧
      ∀ p ∈ extra, p.1 ∈ req ∧ hasCol t p.1 = false ∧
        p.2 = List.replicate t.nrows (defaultFor p.1)) ∧
    (ensure_columns t req).nrows = t.nrows ∧
    (∀ c ∈ req, hasCol (ensure_columns t req) c = true) ∧
    defaultFor "Paid" = Cell.bool false ∧
    defaultFor "Claimed" = Cell.bool false ∧
    ∀ c, c ≠ "Paid" → c ≠ "Claimed" → defaultFor c = Cell.na := by
  obtain ⟨extra, hn, hc, hp⟩ := ensure_columns_decomp req t
  refine ⟨⟨extra, hc, hp⟩, hn, fun c hc' => ensure_hasCol req t c hc', rfl, rfl, ?_⟩
  intro c h1 h2
  unfold defaultFor
  rw [if_neg]
  rintro (h | h) <;> [exact h1 h; exact h2 h]

/-! Helper lemmas about the ledger operations. -/

/-- `find?` commutes with a `map` whose function preserves the predicate. -/
theorem find?_map_pres {α : Type} (p : α → Bool) (f : α → α) (l : List α)
    (hf : ∀ x, p (f x) = p x) : (l.map f).find? p = (l.find? p).map f := by
  induction l with
  | nil => rfl
  | cons x xs ih =>
    cases hx : p x with
    | false =>
      rw [List.map_cons, List.find?_cons_of_neg, List.find?_cons_of_neg, ih]
      · rw [hx]
        exact Bool.false_ne_true
      · rw [hf x, hx]
        exact Bool.false_ne_true
    | true =>
      rw [List.map_cons, List.find?_cons_of_pos, List.find?_cons_of_pos]
      · rfl
      · exact hx
      · rw [hf x]
        exact hx

/-- A concrete ledger for witnesses: one item `A1` with 2 units in stock,
`Price1 = 100`, and empty logs — spec.md section 8's scenario 7. -/
def exLedger : LedgerState :=
  { stock := [⟨"A1", "Widget", 2, 100, 90, 80⟩],
    sales := [], stockUpdate := [], billToBill := [] }

/-- C1: when `code` has a Stock row (the one `iloc[0]` picks being `r`),
`recordSale` succeeds, appends exactly one Sales row whose `Total` is
`qty` times the chosen price column of `r`, appends exactly one StockUpdate
row with `Qty = -qty` and `Type = "Sale"`, leaves BillToBill alone, and
decrements the item's `Stock` field by `qty` — with no floor check: the
theorem holds for every `qty`, so the resulting stock may well be negative
and the sale is still accepted. -/
theorem recordSale_sale (d : Int) (code : String) (qty : Int) (pc : PriceCol)
    (it iid : String) (s : LedgerState) (r : StockRow)
    (h : (s.stock.filter (fun x => x.itemCode == code)).head? = some r) :
    ∃ s', recordSale d code qty pc it iid s = Except.ok s' ∧
      s'.sales = s.sales ++
        [⟨d, code, qty, priceOf r pc, (qty : ℚ) * priceOf r pc, it, iid⟩] ∧
      s'.stockUpdate = s.stockUpdate ++ [⟨d, code, -qty, "Sale", none⟩] ∧
      s'.billToBill = s.billToBill ∧
      stockOf code s' = (stockOf code s).map (fun n => n - qty) := by
  unfold recordSale
  rw [h]
  refine ⟨_, rfl, rfl, rfl, rfl, ?_⟩
  unfold stockOf
  show ((s.stock.map fun x =>
      if x.itemCode == code then { x with stock := x.stock - qty } else x).find?
        (fun x => x.itemCode == code)).map StockRow.stock =
    ((s.stock.find? (fun x => x.itemCode == code)).map StockRow.stock).map
      (fun n => n - qty)
  rw [find?_map_pres]
  · cases hfind : s.stock.find? (fun x => x.itemCode == code) with
    | none => rfl
    | some r0 =>
      have hp := List.find?_some hfind
      show some (if r0.itemCode == code then { r0 with stock := r0.stock - qty }
        else r0).stock = some (r0.stock - qty)
      rw [if_pos hp]
  · intro x
    cases hx : x.itemCode == code with
    | false =>
      rw [if_neg Bool.false_ne_true]
      exact hx
    | true =>
      rw [if_pos rfl]
      exact hx

/-- Witness for C1: selling 3 units of `A1` (stock 2, `Price1 = 100`) from
`exLedger` succeeds, appends the Sales and StockUpdate rows, and the decrement
`2 - 3` drives the stock to `-1` — the sale is accepted anyway. -/
theorem recordSale_sale_witness :
    (∃ s', recordSale 0 "A1" 3 PriceCol.price1 "Cash" "INV1" exLedger = Except.ok s' ∧
      s'.sales = exLedger.sales ++
        [⟨0, "A1", 3, priceOf ⟨"A1", "Widget", 2, 100, 90, 80⟩ PriceCol.price1,
          (3 : ℚ) * priceOf ⟨"A1", "Widget", 2, 100, 90, 80⟩ PriceCol.price1,
          "Cash", "INV1"⟩] ∧
      s'.stockUpdate = exLedger.stockUpdate ++ [⟨0, "A1", -3, "Sale", none⟩] ∧
      s'.billToBill = exLedger.billToBill ∧
      stockOf "A1" s' = (stockOf "A1" exLedger).map (fun n => n - 3)) ∧
    (stockOf "A1" exLedger).map (fun n => n - 3) = some (-1) :=
  ⟨recordSale_sale 0 "A1" 3 PriceCol.price1 "Cash" "INV1" exLedger
    ⟨"A1", "Widget", 2, 100, 90, 80⟩ rfl, rfl⟩

/-- C2 (amended): for an item code absent from Stock, `recordSale` fails with
the uncaught `IndexError` that `.iloc[0]` raises on the empty selection — it
does not report an `UnknownItem` error (the spec-modelled check
`recordSaleSpecErr` would) — and, failing before any mutation, it never
produces a successor state, so Stock, Sales and StockUpdate are unchanged. -/
theorem recordSale_unknown (d : Int) (code : String) (qty : Int) (pc : PriceCol)
    (it iid : String) (s : LedgerState)
    (h : ∀ r ∈ s.stock, r.itemCode ≠ code) :
    recordSale d code qty pc it iid s = Except.error PyError.indexError ∧
    (∀ s', recordSale d code qty pc it iid s ≠ Except.ok s') ∧
    recordSaleSpecErr code s = some PyError.unknownItem := by
  have hfilter : s.stock.filter (fun r => r.itemCode == code) = [] := by
    rw [List.filter_eq_nil_iff]
    intro r hr
    simp only [ne_eq, beq_iff_eq]
    exact h r hr
  have hrec : recordSale d code qty pc it iid s = Except.error PyError.indexError := by
    unfold recordSale
    rw [hfilter]
    rfl
  refine ⟨hrec, ?_, ?_⟩
  · intro s' hok
    rw [hrec] at hok
    cases hok
  · unfold recordSaleSpecErr
    rw [if_pos]
    rw [List.all_eq_true]
    intro r hr
    simp only [bne_iff_ne, ne_eq]
    exact h r hr

/-- Witness for C2 (amended): `B9` is not in `exLedger`'s Stock, and the sale
fails with `IndexError` while the spec's check would say `UnknownItem`. -/
theorem recordSale_unknown_witness :
    recordSale 0 "B9" 1 PriceCol.price1 "Cash" "X" exLedger =
      Except.error PyError.indexError ∧
    (∀ s', recordSale 0 "B9" 1 PriceCol.price1 "Cash" "X" exLedger ≠ Except.ok s') ∧
    recordSaleSpecErr "B9" exLedger = some PyError.unknownItem :=
  recordSale_unknown 0 "B9" 1 PriceCol.price1 "Cash" "X" exLedger (by decide)

/-- Counterexample for C2 as stated: with `B9` absent from `exLedger`'s Stock,
`recordSale` yields the raised `IndexError`, not a reported `UnknownItem`. -/
theorem recordSale_unknown_counterexample :
    recordSale 0 "B9" 1 PriceCol.price1 "Cash" "" exLedger =
      Except.error PyError.indexError ∧
    recordSale 0 "B9" 1 PriceCol.price1 "Cash" "" exLedger ≠
      Except.error PyError.unknownItem :=
  ⟨rfl, fun hcontra => PyError.noConfusion (Except.error.inj hcontra)⟩

/-- C3 (amended): `recordSale` never appends a BillToBill row — for every
invoice type, `Credit` included, a successful sale leaves the BillToBill
table exactly as it was (src/app.py lines 113-123 never touch `bill_df`). -/
theorem recordSale_billToBill (d : Int) (code : String) (qty : Int)
    (pc : PriceCol) (it iid : String) (s s' : LedgerState)
    (h : recordSale d code qty pc it iid s = Except.ok s') :
    s'.billToBill = s.billToBill := by
  unfold recordSale at h
  cases hh : (s.stock.filter (fun r => r.itemCode == code)).head? with
  | none =>
    rw [hh] at h
    cases h
  | some r =>
    rw [hh] at h
    cases h
    rfl

/-- Witness for C3 (amended): a concrete Credit sale from `exLedger` succeeds
and its BillToBill table is unchanged. -/
theorem recordSale_billToBill_witness :
    ∃ s', recordSale 0 "A1" 1 PriceCol.price1 "Credit" "INV7" exLedger =
        Except.ok s' ∧
      s'.billToBill = exLedger.billToBill :=
  ⟨_, rfl, recordSale_billToBill 0 "A1" 1 PriceCol.price1 "Credit" "INV7"
    exLedger _ rfl⟩

/-- Counterexample for C3 as stated: a sale with invoice type `Credit`
succeeds and the resulting BillToBill table is still empty — no row with a
14-day due date (or any row at all) was appended. -/
theorem creditSale_no_bill_counterexample :
    exLedger.billToBill = [] ∧
    (recordSale 0 "A1" 1 PriceCol.price1 "Credit" "INV7" exLedger).map
      LedgerState.billToBill = Except.ok [] :=
  ⟨rfl, rfl⟩

/-- C7: restocking `qty` units of an item present in Stock and then selling
`qty` units of the same item returns the whole Stock table — in particular
that item's `Stock` field — to its original value. -/
theorem restock_recordSale_roundtrip (d1 d2 : Int) (code : String) (qty : Int)
    (bp : ℚ) (pc : PriceCol) (it iid : String) (s : LedgerState)
    (_hqty : 0 < qty) (hcode : ∃ r ∈ s.stock, r.itemCode = code) :
    (recordSale d2 code qty pc it iid (restock d1 code qty bp s)).map
      LedgerState.stock = Except.ok s.stock := by
  obtain ⟨r, hr, hrc⟩ := hcode
  cases hh : ((restock d1 code qty bp s).stock.filter
      (fun x => x.itemCode == code)).head? with
  | none =>
    exfalso
    have hnil : (restock d1 code qty bp s).stock.filter
        (fun x => x.itemCode == code) = [] := by
      cases hcase : (restock d1 code qty bp s).stock.filter
          (fun x => x.itemCode == code) with
      | nil => rfl
      | cons a l =>
        rw [hcase] at hh
        cases hh
    have hall := List.filter_eq_nil_iff.mp hnil
    have hbeq : (r.itemCode == code) = true := by
      rw [hrc]
      exact beq_self_eq_true code
    have hmem : (if r.itemCode == code then { r with stock := r.stock + qty }
        else r) ∈ (restock d1 code qty bp s).stock :=
      List.mem_map_of_mem _ hr
    apply hall _ hmem
    rw [if_pos hbeq]
    exact hbeq
  | some r0 =>
    unfold recordSale
    rw [hh]
    show Except.ok (((restock d1 code qty bp s).stock).map (fun x =>
        if x.itemCode == code then { x with stock := x.stock - qty } else x)) =
      Except.ok s.stock
    apply congrArg
    show ((s.stock.map (fun x =>
        if x.itemCode == code then { x with stock := x.stock + qty } else x)).map
          (fun x =>
        if x.itemCode == code then { x with stock := x.stock - qty } else x)) =
      s.stock
    rw [List.map_map]
    have hid : ∀ x ∈ s.stock,
        ((fun x => if x.itemCode == code then { x with stock := x.stock - qty } else x) ∘
         (fun x => if x.itemCode == code then { x with stock := x.stock + qty } else x)) x
          = id x := by
      intro x _
      simp only [Function.comp_apply, id_eq]
      cases hx : x.itemCode == code with
      | false => simp [hx]
      | true => simp [hx, add_sub_cancel_right]
    rw [List.map_congr_left hid, List.map_id]

/-- Witness for C7: restocking 5 units of `A1` and then selling 5 units
leaves `exLedger`'s Stock table exactly as it started. -/
theorem restock_recordSale_roundtrip_witness :
    (0 : Int) < 5 ∧
    (recordSale 1 "A1" 5 PriceCol.price2 "Cash" "Y" (restock 0 "A1" 5 55 exLedger)).map
      LedgerState.stock = Except.ok exLedger.stock :=
  ⟨by decide,
   restock_recordSale_roundtrip 0 1 "A1" 5 55 PriceCol.price2 "Cash" "Y" exLedger
     (by decide) ⟨⟨"A1", "Widget", 2, 100, 90, 80⟩, by decide, rfl⟩⟩

/-- The per-row condition of `due_soon_alert`, spelled out. -/
theorem dueSoonRow_iff (today : Int) (r : DueRow) :
    dueSoonRow today r = true ↔
      r.done = some false ∧
        ∃ d, r.date = some d ∧ 0 ≤ d - today ∧ d - today ≤ 3 := by
  obtain ⟨date, done⟩ := r
  cases done with
  | none => simp [dueSoonRow, cellNotTruthy]
  | some b =>
    cases b with
    | true => simp [dueSoonRow, cellNotTruthy]
    | false =>
      cases date with
      | none => simp [dueSoonRow, cellNotTruthy]
      | some d =>
        simp only [dueSoonRow, cellNotTruthy, Bool.not_false, Bool.true_and,
          decide_eq_true_eq, Option.some.injEq]
        constructor
        · rintro ⟨h1, h2⟩
          exact ⟨trivial, d, rfl, h2, h1⟩
        · rintro ⟨-, d', hd', h1, h2⟩
          cases hd'
          exact ⟨h2, h1⟩

/-- C4: `due_soon_alert` returns `True` exactly when some row has its done
column equal to `False` and a parsed date whose difference from today, in
days, is between 0 and 3 inclusive; rows whose date is missing or
unparseable (`NaT` after coercion) are excluded and never counted as due. -/
theorem due_soon_alert_iff (rows : List DueRow) (today : Int) :
    due_soon_alert rows today = true ↔
      ∃ r ∈ rows, r.done = some false ∧
        ∃ d, r.date = some d ∧ 0 ≤ d - today ∧ d - today ≤ 3 := by
  unfold due_soon_alert
  rw [List.any_eq_true]
  constructor
  · rintro ⟨r, hr, hdue⟩
    exact ⟨r, hr, (dueSoonRow_iff today r).mp hdue⟩
  · rintro ⟨r, hr, hprop⟩
    exact ⟨r, hr, (dueSoonRow_iff today r).mpr hprop⟩

/-- C10: a row whose done-flag cell is missing (`NaN`, not `False`) is never
counted as due — `not nan` is falsy in python — even when its date lies
within the 3-day horizon; hence on a table all of whose rows have a missing
done flag, `due_soon_alert` returns `False` no matter the dates. -/
theorem missing_done_not_due (rows : List DueRow) (today : Int)
    (h : ∀ r ∈ rows, r.done = none) :
    due_soon_alert rows today = false ∧
    ∀ (t : Int) (r : DueRow), r.done = none → dueSoonRow t r = false := by
  have hrow : ∀ (t : Int) (r : DueRow), r.done = none → dueSoonRow t r = false := by
    intro t r hr
    unfold dueSoonRow
    rw [hr]
    rfl
  refine ⟨?_, hrow⟩
  cases halert : due_soon_alert rows today with
  | false => rfl
  | true =>
    exfalso
    obtain ⟨r, hr, hdue⟩ := List.any_eq_true.mp halert
    rw [hrow today r (h r hr)] at hdue
    cases hdue

/-- Witness for C10: a single row due tomorrow (inside the horizon) with a
missing done flag does not trigger the alert, and that row is not due. -/
theorem missing_done_not_due_witness :
    (∀ r ∈ [({ date := some 1, done := none } : DueRow)], r.done = none) ∧
    due_soon_alert [({ date := some 1, done := none } : DueRow)] 0 = false ∧
    dueSoonRow 0 ({ date := some 1, done := none } : DueRow) = false :=
  ⟨by decide,
   (missing_done_not_due [({ date := some 1, done := none } : DueRow)] 0
      (by decide)).1,
   (missing_done_not_due [({ date := some 1, done := none } : DueRow)] 0
      (by decide)).2 0 { date := some 1, done := none } rfl⟩

/-- C5: when reading or parsing the backing sheet fails for any reason,
`load_sheet` returns the empty table conforming to the sheet's required
schema (zero rows, exactly the required columns) and reports the error
message, instead of propagating the exception: `load_sheet` is a total
function, so the failure never reaches the caller's control flow. -/
theorem load_sheet_error (required : List String) (e : String) :
    load_sheet required (Except.error e) = (emptyTable required, some e) ∧
    (load_sheet required (Except.error e)).1.nrows = 0 ∧
    (load_sheet required (Except.error e)).1.cols = required.map (fun c => (c, [])) ∧
    (∀ c ∈ required, hasCol (load_sheet required (Except.error e)).1 c = true) ∧
    (load_sheet required (Except.error e)).2 = some e := by
  refine ⟨rfl, rfl, rfl, ?_, rfl⟩
  intro c hc
  show hasCol (emptyTable required) c = true
  unfold emptyTable hasCol
  rw [List.any_eq_true]
  refine ⟨(c, []), List.mem_map_of_mem _ hc, ?_⟩
  exact beq_self_eq_true c

/-- The profit loop runs to completion when every Sales row has numeric
`Qty` and `Price` cells, accumulating each row's contribution. -/
theorem profit_fold_ok (updates : List UpdateRow) (sales : List RawSalesRow)
    (acc : ℚ) (h : ∀ r ∈ sales, r.qty.isSome ∧ r.price.isSome) :
    sales.foldlM (fun acc r => (profitRow updates r).map (fun v => acc + v)) acc =
      Except.ok (acc + (sales.map (fun r =>
        r.qty.getD 0 * (r.price.getD 0 - costBasis updates r.itemCode))).sum) := by
  induction sales generalizing acc with
  | nil =>
    show Except.ok acc = Except.ok (acc + ([] : List ℚ).sum)
    rw [List.sum_nil, add_zero]
  | cons r rs ih =>
    obtain ⟨hq, hp⟩ := h r (List.mem_cons_self r rs)
    obtain ⟨q, hq'⟩ := Option.isSome_iff_exists.mp hq
    obtain ⟨p, hp'⟩ := Option.isSome_iff_exists.mp hp
    have hrow : profitRow updates r =
        Except.ok (q * (p - costBasis updates r.itemCode)) := by
      unfold profitRow
      rw [hq', hp']
    rw [List.foldlM_cons, hrow]
    show rs.foldlM _ (acc + q * (p - costBasis updates r.itemCode)) = _
    rw [ih _ (fun x hx => h x (List.mem_cons_of_mem r hx))]
    rw [List.map_cons, List.sum_cons, hq', hp']
    show Except.ok _ = Except.ok _
    rw [Option.getD_some, Option.getD_some, add_assoc]

/-- A malformed `Qty` or `Price` cell anywhere in the Sales table makes the
profit loop raise, aborting the whole accumulation. -/
theorem profit_fold_err (updates : List UpdateRow) (sales : List RawSalesRow)
    (acc : ℚ) (h : ∃ r ∈ sales, r.qty = none ∨ r.price = none) :
    sales.foldlM (fun acc r => (profitRow updates r).map (fun v => acc + v)) acc =
      Except.error () := by
  induction sales generalizing acc with
  | nil =>
    obtain ⟨r, hr, _⟩ := h
    cases hr
  | cons r rs ih =>
    rw [List.foldlM_cons]
    obtain ⟨r0, hr0, hbad⟩ := h
    rcases List.mem_cons.mp hr0 with rfl | hmem
    · have hrow : profitRow updates r0 = Except.error () := by
        unfold profitRow
        rcases hbad with hq | hp
        · cases hq3 : r0.price <;> rw [hq]
        · cases hq2 : r0.qty <;> rw [hp]
      rw [hrow]
      rfl
    · cases hrow : profitRow updates r with
      | error e => rfl
      | ok v =>
        show rs.foldlM _ (acc + v) = Except.error ()
        exact ih _ ⟨r0, hmem, hbad⟩

/-- C8: the Dashboard's estimated profit equals, over all Sales rows, the sum
of `Qty * (Price - costBasis)`, where the cost basis of a row is the mean of
the non-null `BoughtPrice` values in StockUpdate for that row's `ItemCode`
(0 when there are none) — whenever every row's `Qty` and `Price` are
numeric; and it falls back to `totalSales - totalExpense` as soon as some
row's `Qty` or `Price` cell is malformed and the loop raises. -/
theorem profitEstimate_spec (sales : List RawSalesRow) (updates : List UpdateRow)
    (totalSales totalExpense : ℚ) :
    ((∀ r ∈ sales, r.qty.isSome ∧ r.price.isSome) →
      profitEstimate sales updates totalSales totalExpense =
        (sales.map (fun r =>
          r.qty.getD 0 * (r.price.getD 0 - costBasis updates r.itemCode))).sum) ∧
    ((∃ r ∈ sales, r.qty = none ∨ r.price = none) →
      profitEstimate sales updates totalSales totalExpense =
        totalSales - totalExpense) := by
  constructor
  · intro h
    unfold profitEstimate
    rw [profit_fold_ok updates sales 0 h]
    rw [zero_add]
  · intro h
    unfold profitEstimate
    rw [profit_fold_err updates sales 0 h]
